import Mathlib

/-!
# SYCU buffer coherence and asynchronous worker

A shallow embedding of `src/libsycu/buffer.cpp` and `src/libsycu/async_worker.cpp`:
the buffer state monitor (version counters), the buffer access log
(dependency manager), the parts of `buffer_impl` that copy between host and
device, and the worker thread's processing loop.
-/

namespace sycu

/-! ## Types declared in headers -/

/-- Modelled from the spec: `access::mode` is declared in a header that is not
part of the sources at hand. The specification lists the modes read, write and
read_write; the code only ever compares a mode with `access::mode::read`. -/
inductive access_mode where
  | read
  | write
  | read_write
  deriving DecidableEq, Repr

/-- The three values of `buffer_action` that `buffer.cpp` uses. -/
inductive buffer_action where
  | none
  | update_host
  | update_device
  deriving DecidableEq, Repr

/-! ## buffer_state_monitor -/

/-- The members of `buffer_state_monitor`. The two version counters are
modelled as natural numbers: their C++ type is declared in the absent header
and the specification describes them as version counters without a width. -/
structure buffer_state_monitor where
  _svm : Bool
  _host_data_version : Nat
  _device_data_version : Nat
  deriving DecidableEq, Repr

/-- The constructor `buffer_state_monitor::buffer_state_monitor(bool is_svm)`. -/
def buffer_state_monitor.ctor (is_svm : Bool) : buffer_state_monitor :=
  { _svm := is_svm, _host_data_version := 0, _device_data_version := 0 }

/-- The method `buffer_state_monitor::register_host_access`: the returned action
and the monitor after the call. -/
def buffer_state_monitor.register_host_access (self : buffer_state_monitor)
    (m : access_mode) : buffer_action × buffer_state_monitor :=
  if self._svm then
    (buffer_action.none,
      { self with _host_data_version := 0, _device_data_version := 0 })
  else
    let copy_required : Bool :=
      decide (self._host_data_version < self._device_data_version)
    let self1 : buffer_state_monitor :=
      if m ≠ access_mode.read then
        { self with _host_data_version := self._device_data_version + 1 }
      else
        { self with _host_data_version := self._device_data_version }
    if copy_required then (buffer_action.update_host, self1)
    else (buffer_action.none, self1)

/-- The method `buffer_state_monitor::register_device_access`: the returned
action and the monitor after the call. -/
def buffer_state_monitor.register_device_access (self : buffer_state_monitor)
    (m : access_mode) : buffer_action × buffer_state_monitor :=
  if self._svm then
    (buffer_action.none,
      { self with _host_data_version := 0, _device_data_version := 0 })
  else
    let copy_required : Bool :=
      decide (self._device_data_version < self._host_data_version)
    let self1 : buffer_state_monitor :=
      if m ≠ access_mode.read then
        { self with _device_data_version := self._host_data_version + 1 }
      else
        { self with _device_data_version := self._host_data_version }
    if copy_required then (buffer_action.update_device, self1)
    else (buffer_action.none, self1)

/-- The method `buffer_state_monitor::is_host_outdated`. -/
def buffer_state_monitor.is_host_outdated (self : buffer_state_monitor) : Bool :=
  decide (self._host_data_version < self._device_data_version)

/-- The method `buffer_state_monitor::is_device_outdated`. -/
def buffer_state_monitor.is_device_outdated (self : buffer_state_monitor) : Bool :=
  decide (self._device_data_version < self._host_data_version)

/-- The two domains of a buffer. -/
inductive domain where
  | host
  | device
  deriving DecidableEq, Repr

/-- One registration call on the monitor: `register_host_access` for the host
domain, `register_device_access` for the device domain. -/
def buffer_state_monitor.register_access (self : buffer_state_monitor)
    (d : domain) (m : access_mode) : buffer_action × buffer_state_monitor :=
  match d with
  | domain.host => self.register_host_access m
  | domain.device => self.register_device_access m

/-- A sequence of registration calls: the actions returned, in call order, and
the monitor after the last call. -/
def buffer_state_monitor.register_all (self : buffer_state_monitor) :
    List (domain × access_mode) → List buffer_action × buffer_state_monitor
  | [] => ([], self)
  | (d, m) :: rest =>
    let r := self.register_access d m
    let rs := buffer_state_monitor.register_all r.2 rest
    (r.1 :: rs.1, rs.2)

/-! ## buffer_access_log -/

/-- A handle of a task graph node (`task_graph_node_ptr`), identified by a
number. Whether a node has completed is given by a function from handles to
`Bool`, the completion status at the time of a call (`is_done()`). -/
abbrev task_graph_node_ptr := Nat

/-- An element of `buffer_access_log::_operations`: the pair `{task, access}`
that `add_operation` pushes. -/
structure logged_operation where
  task : task_graph_node_ptr
  access_mode : access_mode
  deriving DecidableEq, Repr

/-- The member of `buffer_access_log`: the vector `_operations`. -/
structure buffer_access_log where
  _operations : List logged_operation
  deriving DecidableEq, Repr

/-- The erase loop of `add_operation`, with the iterator `it` splitting the
vector into the elements before it (`before`, already visited and kept) and
the elements from it on (`from_it`): `erase(it)` drops the element at the
iterator, `++it` moves it to the visited part. -/
def buffer_access_log.erase_loop (is_done : task_graph_node_ptr → Bool) :
    List logged_operation → List logged_operation → List logged_operation
  | before, [] => before
  | before, op :: from_it =>
    if is_done op.task then
      buffer_access_log.erase_loop is_done before from_it
    else
      buffer_access_log.erase_loop is_done (before ++ [op]) from_it

/-- The method `buffer_access_log::add_operation`: `push_back`, then the erase
loop started at `begin()`. -/
def buffer_access_log.add_operation (is_done : task_graph_node_ptr → Bool)
    (self : buffer_access_log) (task : task_graph_node_ptr)
    (access : access_mode) : buffer_access_log :=
  let pushed := self._operations ++ [{ task := task, access_mode := access }]
  { _operations := buffer_access_log.erase_loop is_done [] pushed }

/-- The method `buffer_access_log::is_buffer_in_use`. -/
def buffer_access_log.is_buffer_in_use (self : buffer_access_log) : Bool :=
  decide (self._operations.length > 0)

/-- The destructor `buffer_access_log::~buffer_access_log`: the nodes waited
on, in order. -/
def buffer_access_log.dtor (self : buffer_access_log) : List task_graph_node_ptr :=
  self._operations.foldl (fun waited op => waited ++ [op.task]) []

/-- The method `buffer_access_log::calculate_dependencies`: the vector `deps`
returned, built by `push_back` in the two loops, together with the log after the
call (the method is `const`). -/
def buffer_access_log.calculate_dependencies (self : buffer_access_log)
    (m : access_mode) : List task_graph_node_ptr × buffer_access_log :=
  let deps : List task_graph_node_ptr :=
    if m ≠ access_mode.read then
      self._operations.foldl (fun deps op => deps ++ [op.task]) []
    else
      self._operations.foldl
        (fun deps op =>
          if op.access_mode ≠ access_mode.read then deps ++ [op.task] else deps) []
  (deps, self)

/-- The loop of `buffer_access_log::is_write_operation_pending`, returning at
the first pending write. -/
def buffer_access_log.is_write_operation_pending_loop
    (is_done : task_graph_node_ptr → Bool) : List logged_operation → Bool
  | [] => false
  | op :: rest =>
    if op.access_mode ≠ access_mode.read ∧ is_done op.task = false then true
    else buffer_access_log.is_write_operation_pending_loop is_done rest

/-- The method `buffer_access_log::is_write_operation_pending`. -/
def buffer_access_log.is_write_operation_pending
    (is_done : task_graph_node_ptr → Bool) (self : buffer_access_log) : Bool :=
  buffer_access_log.is_write_operation_pending_loop is_done self._operations

/-! ## Memory and buffer_impl -/

/-- Host and device memory, each a map from addresses to bytes. Pointers are
addresses; `nullptr` is the address `0`. -/
structure memory where
  host : Nat → Nat
  device : Nat → Nat

/-- The null pointer. -/
def nullptr : Nat := 0

/-- The function `memory_offset`. -/
def memory_offset (ptr bytes : Nat) : Nat := ptr + bytes

/-- The bytes of `dst_space` after copying `len` bytes from address `src` of
`src_space` to address `dst`. -/
def copy_bytes (dst_space src_space : Nat → Nat) (dst src len : Nat) : Nat → Nat :=
  fun a => if dst ≤ a ∧ a < dst + len then src_space (src + (a - dst)) else dst_space a

/-- The method `buffer_impl::memcpy_d2h`: a device-to-host copy (the copy is
taken to succeed and to have completed). -/
def memcpy_d2h (mem : memory) (host device len : Nat) : memory :=
  { mem with host := copy_bytes mem.host mem.device host device len }

/-- The method `buffer_impl::memcpy_h2d`: a host-to-device copy (the copy is
taken to succeed and to have completed). -/
def memcpy_h2d (mem : memory) (device host len : Nat) : memory :=
  { mem with device := copy_bytes mem.device mem.host device host len }

/-- The members of `buffer_impl`. -/
structure buffer_impl where
  _svm : Bool
  _pinned_memory : Bool
  _owns_host_memory : Bool
  _host_memory : Nat
  _buffer_pointer : Nat
  _size : Nat
  _write_back : Bool
  _write_back_memory : Nat
  _monitor : buffer_state_monitor
  _dependency_manager : buffer_access_log
  deriving DecidableEq, Repr

/-- The method `buffer_impl::update_host(begin, end, stream)`. -/
def buffer_impl.update_host_range (self : buffer_impl) (mem : memory)
    (b e : Nat) : memory :=
  if !self._svm then
    if self._host_memory ≠ nullptr then
      memcpy_d2h mem (memory_offset self._host_memory b)
        (memory_offset self._buffer_pointer b) (e - b)
    else mem
  else mem

/-- The method `buffer_impl::update_host(stream)`. -/
def buffer_impl.update_host (self : buffer_impl) (mem : memory) : memory :=
  self.update_host_range mem 0 self._size

/-- The method `buffer_impl::update_device(begin, end, stream)`. -/
def buffer_impl.update_device_range (self : buffer_impl) (mem : memory)
    (b e : Nat) : memory :=
  if !self._svm then
    if self._host_memory ≠ nullptr then
      memcpy_h2d mem (memory_offset self._buffer_pointer b)
        (memory_offset self._host_memory b) (e - b)
    else mem
  else mem

/-- The method `buffer_impl::update_device(stream)`. -/
def buffer_impl.update_device (self : buffer_impl) (mem : memory) : memory :=
  self.update_device_range mem 0 self._size

/-- The method `buffer_impl::execute_buffer_action`. -/
def buffer_impl.execute_buffer_action (self : buffer_impl) (a : buffer_action)
    (mem : memory) : memory :=
  if a = buffer_action.update_device then self.update_device mem
  else if a = buffer_action.update_host then self.update_host mem
  else mem

/-- The task that `buffer_impl::access_host` inserts into the task graph:
`execute_buffer_action(_monitor.register_host_access(m), stream)`. -/
def buffer_impl.host_access_task (self : buffer_impl) (mem : memory)
    (m : access_mode) : buffer_impl × memory :=
  let r := self._monitor.register_host_access m
  let self1 := { self with _monitor := r.2 }
  (self1, self1.execute_buffer_action r.1 mem)

/-- The task that `buffer_impl::access_device` inserts into the task graph:
`execute_buffer_action(_monitor.register_device_access(m), stream)`. -/
def buffer_impl.device_access_task (self : buffer_impl) (mem : memory)
    (m : access_mode) : buffer_impl × memory :=
  let r := self._monitor.register_device_access m
  let self1 := { self with _monitor := r.2 }
  (self1, self1.execute_buffer_action r.1 mem)

/-- The method `buffer_impl::register_external_access`. -/
def buffer_impl.register_external_access (is_done : task_graph_node_ptr → Bool)
    (self : buffer_impl) (task : task_graph_node_ptr) (m : access_mode) :
    buffer_impl :=
  { self with
    _dependency_manager := self._dependency_manager.add_operation is_done task m }

/-! ## Destruction of a buffer -/

/-- The calls with an effect outside the object that the destruction of a
`buffer_impl` makes. -/
inductive destruction_effect where
  | memcpy (dst src len : Nat)
  | cudaFree (p : Nat)
  | hipMemcpy_device_to_host (dst src len : Nat)
  | hipFree (p : Nat)
  | hipHostFree (p : Nat)
  | delete_array (p : Nat)
  | wait (node : task_graph_node_ptr)
  deriving DecidableEq, Repr

/-- The body of the destructor `buffer_impl::~buffer_impl`: its calls, in
execution order. `platform_cuda` says whether `SYCU_PLATFORM_CUDA` is
defined. -/
def buffer_impl.dtor_body (platform_cuda : Bool) (self : buffer_impl) :
    List destruction_effect :=
  if self._svm then
    if platform_cuda then
      (if self._write_back ∧ self._write_back_memory ≠ nullptr ∧
          self._write_back_memory ≠ self._buffer_pointer then
        [destruction_effect.memcpy self._write_back_memory self._buffer_pointer
          self._size]
      else [])
      ++ [destruction_effect.cudaFree self._buffer_pointer]
    else []
  else
    (if self._write_back ∧ self._write_back_memory ≠ nullptr then
      (if (self._write_back_memory = self._host_memory ∧
            self._monitor.is_host_outdated = true)
          ∨ self._write_back_memory ≠ self._host_memory then
        [destruction_effect.hipMemcpy_device_to_host self._write_back_memory
          self._buffer_pointer self._size]
      else [])
    else [])
    ++ [destruction_effect.hipFree self._buffer_pointer]
    ++ (if self._owns_host_memory then
          (if self._pinned_memory then
            [destruction_effect.hipHostFree self._host_memory]
          else [destruction_effect.delete_array self._host_memory])
        else [])

/-- The destruction of a `buffer_impl` object: the body of `~buffer_impl` runs
first, then the destructors of the members; of these only
`~buffer_access_log` of `_dependency_manager` makes calls (it waits on every
logged node). -/
def buffer_impl.destroy (platform_cuda : Bool) (self : buffer_impl) :
    List destruction_effect :=
  buffer_impl.dtor_body platform_cuda self
    ++ (self._dependency_manager.dtor).map destruction_effect.wait

/-- What a call of the destruction does to memory: the copies move bytes, the
other calls leave the bytes as they are. -/
def destruction_effect.apply (mem : memory) : destruction_effect → memory
  | destruction_effect.memcpy dst src len =>
    { mem with host := copy_bytes mem.host mem.host dst src len }
  | destruction_effect.hipMemcpy_device_to_host dst src len =>
    { mem with host := copy_bytes mem.host mem.device dst src len }
  | _ => mem

/-- The index of the first element of `l` satisfying `p`, if there is one. -/
def first_index {α : Type} (p : α → Bool) : List α → Option Nat
  | [] => none
  | a :: l => if p a then some 0 else (first_index p l).map (fun i => i + 1)

/-! ## Accesses to a buffer -/

/-- An access to a buffer: the domain, the mode, and the bytes the accessor
stores (by offset into the buffer) when the mode is not read. -/
structure buffer_access where
  dom : domain
  mode : access_mode
  data : Nat → Nat

/-- The bytes of a region of `len` bytes at `ptr` replaced by `data`. -/
def overwrite (space : Nat → Nat) (ptr len : Nat) (data : Nat → Nat) : Nat → Nat :=
  fun a => if ptr ≤ a ∧ a < ptr + len then data (a - ptr) else space a

/-- The contents of the buffer in a domain, by offset. -/
def buffer_impl.contents (self : buffer_impl) (mem : memory) (d : domain)
    (i : Nat) : Nat :=
  match d with
  | domain.host => mem.host (self._host_memory + i)
  | domain.device => mem.device (self._buffer_pointer + i)

/-- One access: the task of `access_host` or `access_device` runs (the monitor
is asked for the copy action and `execute_buffer_action` performs it), the
access observes the contents of its domain, and, if its mode is not read,
stores its data over them. Returns the buffer, the memory and the contents
observed. -/
def buffer_impl.perform_access (self : buffer_impl) (mem : memory)
    (a : buffer_access) : buffer_impl × memory × (Nat → Nat) :=
  let r := match a.dom with
    | domain.host => self.host_access_task mem a.mode
    | domain.device => self.device_access_task mem a.mode
  let observed := r.1.contents r.2 a.dom
  let mem1 : memory :=
    if a.mode ≠ access_mode.read then
      match a.dom with
      | domain.host =>
        { r.2 with host := overwrite r.2.host r.1._host_memory r.1._size a.data }
      | domain.device =>
        { r.2 with device := overwrite r.2.device r.1._buffer_pointer r.1._size a.data }
    else r.2
  (r.1, mem1, observed)

/-- A sequence of accesses, in submission order: the buffer and the memory
after the last one and the contents each access observed. -/
def buffer_impl.perform_accesses (self : buffer_impl) (mem : memory) :
    List buffer_access → buffer_impl × memory × List (Nat → Nat)
  | [] => (self, mem, [])
  | a :: rest =>
    let r := self.perform_access mem a
    let rs := buffer_impl.perform_accesses r.1 r.2.1 rest
    (rs.1, rs.2.1, r.2.2 :: rs.2.2)

/-- The memory after the destruction of a buffer. -/
def buffer_impl.memory_after_destroy (platform_cuda : Bool) (self : buffer_impl)
    (mem : memory) : memory :=
  (self.destroy platform_cuda).foldl destruction_effect.apply mem

/-- A non-unified buffer of four bytes with its own host storage at address
100, device storage at address 200, write-back enabled to its host storage, a
monitor with both versions 0 and an empty access log: what the constructor
`buffer_impl(size, device_mode, host_alloc_mode)` builds for a host allocation
that is not pinned. -/
def example_buffer : buffer_impl :=
  { _svm := false, _pinned_memory := false, _owns_host_memory := true,
    _host_memory := 100, _buffer_pointer := 200, _size := 4,
    _write_back := true, _write_back_memory := 100,
    _monitor := buffer_state_monitor.ctor false,
    _dependency_manager := { _operations := [] } }

/-- A memory whose bytes are all zero. -/
def zero_memory : memory := { host := fun _ => 0, device := fun _ => 0 }

/-- The access sequence: the host writes 7 to every byte, the host reads, the
device reads. -/
def host_write_host_read_device_read : List buffer_access :=
  [ { dom := domain.host, mode := access_mode.write, data := fun _ => 7 },
    { dom := domain.host, mode := access_mode.read, data := fun _ => 0 },
    { dom := domain.device, mode := access_mode.read, data := fun _ => 0 } ]

/-- The access sequence: the device writes 7 to every byte, the device reads. -/
def device_write_device_read : List buffer_access :=
  [ { dom := domain.device, mode := access_mode.write, data := fun _ => 7 },
    { dom := domain.device, mode := access_mode.read, data := fun _ => 0 } ]

/-- The log after `add_operation(1, write)` on an empty log, called while node
1 has not completed. -/
def log_with_node_1 : buffer_access_log :=
  buffer_access_log.add_operation (fun _ => false) { _operations := [] } 1
    access_mode.write

/-- The example buffer after the task of a device write, with node 5
registered through `register_external_access(5, write)` while node 5 has not
completed. -/
def buffer_with_pending_node : buffer_impl :=
  buffer_impl.register_external_access (fun _ => false)
    (example_buffer.device_access_task zero_memory access_mode.write).1 5
    access_mode.write

/-! ## worker_thread -/

/-- The position of the worker thread in `worker_thread::work`. -/
inductive worker_position where
  /-- At the condition of the `while` loop. -/
  | loop_condition
  /-- At the wait on the condition variable. -/
  | wait_for_work
  /-- At `if(_is_operation_pending)`. -/
  | check_pending
  /-- At the block that takes the front of the queue. -/
  | take_operation
  /-- At `operation()`; the operation is `none` for the empty function that
  the variable is initialised with. -/
  | run_operation (operation : Option Nat)
  /-- At the block that clears `_is_operation_pending`. -/
  | mark_idle
  /-- After the loop: `work` has returned. -/
  | finished
  deriving DecidableEq, Repr

/-- The members of `worker_thread` that `work`, `halt` and `operator()` use
(callables are identified by numbers and the front of the queue is the head of
the list), the position of the worker thread, and two histories: the
callables passed to `operator()` and the operations invoked by `work`, each in
order. -/
structure worker_thread where
  _is_operation_pending : Bool
  _continue : Bool
  _enqueued_operations : List Nat
  position : worker_position
  submitted : List Nat
  invoked : List (Option Nat)
  deriving DecidableEq, Repr

/-- The constructor `worker_thread::worker_thread`: the thread starts `work`. -/
def worker_thread.ctor : worker_thread :=
  { _is_operation_pending := false, _continue := true,
    _enqueued_operations := [], position := worker_position.loop_condition,
    submitted := [], invoked := [] }

/-- The call `worker_thread::operator()(f)`. -/
def worker_thread.call (self : worker_thread) (f : Nat) : worker_thread :=
  { self with
    _is_operation_pending := true,
    _enqueued_operations := self._enqueued_operations ++ [f],
    submitted := self.submitted ++ [f] }

/-- The method `worker_thread::halt`. -/
def worker_thread.halt (self : worker_thread) : worker_thread :=
  { self with _continue := false }

/-- One step of the worker thread in `worker_thread::work`. Each block that
holds the mutex is one step; a thread waiting on the condition variable with a
false predicate, and a thread that has left `work`, stay where they are. -/
def worker_thread.work_step (self : worker_thread) : worker_thread :=
  match self.position with
  | worker_position.loop_condition =>
    if self._continue || self._is_operation_pending then
      { self with position := worker_position.wait_for_work }
    else
      { self with position := worker_position.finished }
  | worker_position.wait_for_work =>
    if self._is_operation_pending || !self._continue then
      { self with position := worker_position.check_pending }
    else self
  | worker_position.check_pending =>
    if self._is_operation_pending then
      { self with position := worker_position.take_operation }
    else
      { self with position := worker_position.loop_condition }
  | worker_position.take_operation =>
    match self._enqueued_operations with
    | [] => { self with position := worker_position.run_operation none }
    | f :: rest =>
      { self with
        _enqueued_operations := rest,
        position := worker_position.run_operation (some f) }
  | worker_position.run_operation operation =>
    { self with
      invoked := self.invoked ++ [operation],
      position := worker_position.mark_idle }
  | worker_position.mark_idle =>
    if self._enqueued_operations.isEmpty then
      { self with
        _is_operation_pending := false,
        position := worker_position.loop_condition }
    else
      { self with position := worker_position.loop_condition }
  | worker_position.finished => self

/-- What can happen to a worker thread object: a callable is submitted through
`operator()`, `halt` is called, or the worker thread takes a step of `work`. -/
inductive worker_event where
  | submit (f : Nat)
  | halt
  | work
  deriving DecidableEq, Repr

/-- The state after an event. -/
def worker_thread.after (self : worker_thread) : worker_event → worker_thread
  | worker_event.submit f => self.call f
  | worker_event.halt => self.halt
  | worker_event.work => self.work_step

/-- The state reached from a newly constructed worker thread by a sequence of
events. -/
def worker_thread.reached (events : List worker_event) : worker_thread :=
  events.foldl worker_thread.after worker_thread.ctor

/-- The callables submitted by a sequence of events, in order. -/
def submissions : List worker_event → List Nat
  | [] => []
  | worker_event.submit f :: rest => f :: submissions rest
  | _ :: rest => submissions rest

/-- The operation the worker thread is about to invoke when it is at
`operation()`, as a list with that one element, and the empty list at every
other position. -/
def worker_thread.about_to_invoke (self : worker_thread) : List (Option Nat) :=
  match self.position with
  | worker_position.run_operation operation => [operation]
  | _ => []

/-- The invariant of a worker thread object: the callables submitted are those
invoked, then the one about to be invoked, then those in the queue; the queue
is not empty when the worker is about to take an operation; and outside the
part of the loop between taking an operation and clearing the flag, the flag
`_is_operation_pending` is only set while the queue is not empty. -/
def worker_thread.consistent (self : worker_thread) : Prop :=
  self.submitted.map some
      = self.invoked ++ self.about_to_invoke ++ self._enqueued_operations.map some
    ∧ (self.position = worker_position.take_operation →
        self._enqueued_operations ≠ [])
    ∧ ((self.position = worker_position.loop_condition
          ∨ self.position = worker_position.wait_for_work
          ∨ self.position = worker_position.check_pending
          ∨ self.position = worker_position.finished) →
        self._is_operation_pending = true → self._enqueued_operations ≠ [])

/-- A non-unified monitor in which the version of domain `d` is not less than
the version of the other domain: an access to `d` needs no copy. -/
def buffer_state_monitor.current_in (self : buffer_state_monitor) (d : domain) :
    Prop :=
  self._svm = false ∧
    match d with
    | domain.host => self._device_data_version ≤ self._host_data_version
    | domain.device => self._host_data_version ≤ self._device_data_version

/-! ## Theorems: the buffer state monitor -/

/-- C1, evaluated on the code: on a non-unified buffer with host storage,
starting with both versions 0 and all bytes zero on both sides, the host
writes 7, the host reads, and then the device reads. No access is given a copy
action, both versions are 0 again after the host read, and the device read
observes 0 at offset 0 although the most recent write stored 7. -/
theorem device_read_after_host_write_and_read_is_stale :
    (example_buffer.perform_accesses zero_memory
        host_write_host_read_device_read).2.2.map (fun observed => observed 0)
        = [0, 7, 0]
      ∧ ((buffer_state_monitor.ctor false).register_all
          (host_write_host_read_device_read.map (fun a => (a.dom, a.mode)))).1
          = [buffer_action.none, buffer_action.none, buffer_action.none]
      ∧ (example_buffer.perform_accesses zero_memory
          host_write_host_read_device_read).1._monitor
          = { _svm := false, _host_data_version := 0, _device_data_version := 0 } := by
  decide

/-- C2, evaluated on the code: on a non-unified buffer with write-back enabled
to its own host storage, the device writes 7 and then the device reads. Both
versions are 0 afterwards, the destruction makes no device-to-host copy (it
frees the device storage, then the host storage), and the write-back target
still holds 0 at offset 0. -/
theorem no_write_back_after_device_write_and_read :
    (example_buffer.perform_accesses zero_memory
        device_write_device_read).1._monitor.is_host_outdated = false
      ∧ (example_buffer.perform_accesses zero_memory
          device_write_device_read).1.destroy false
          = [destruction_effect.hipFree 200, destruction_effect.delete_array 100]
      ∧ (example_buffer.perform_accesses zero_memory
          device_write_device_read).2.1.device 200 = 7
      ∧ ((example_buffer.perform_accesses zero_memory
            device_write_device_read).1.memory_after_destroy false
          (example_buffer.perform_accesses zero_memory
            device_write_device_read).2.1).host 100 = 0 := by
  decide

/-- C3: in non-unified mode, for every pair of versions `h`, `d` and every
mode, `register_host_access` returns `update_host` exactly when `h < d` and
`none` otherwise, leaves the device version unchanged and sets the host version
to `d` for a read and to `d + 1` otherwise; `register_device_access` returns
`update_device` exactly when `d < h` and `none` otherwise, leaves the host
version unchanged and sets the device version to `h` for a read and to `h + 1`
otherwise. -/
theorem register_access_postcondition (h d : Nat) (m : access_mode) :
    (buffer_state_monitor.register_host_access
        { _svm := false, _host_data_version := h, _device_data_version := d } m
      = (if h < d then buffer_action.update_host else buffer_action.none,
          { _svm := false,
            _host_data_version := if m = access_mode.read then d else d + 1,
            _device_data_version := d }))
    ∧ (buffer_state_monitor.register_device_access
        { _svm := false, _host_data_version := h, _device_data_version := d } m
      = (if d < h then buffer_action.update_device else buffer_action.none,
          { _svm := false,
            _host_data_version := h,
            _device_data_version := if m = access_mode.read then h else h + 1 })) := by
  constructor
  · by_cases hlt : h < d <;> cases m <;>
      simp [buffer_state_monitor.register_host_access, hlt]
  · by_cases hlt : d < h <;> cases m <;>
      simp [buffer_state_monitor.register_device_access, hlt]

/-- C4, evaluated on the code: from the initial non-unified monitor a host
write leads to the versions (1, 0), and a following host read sets the host
version to 0, which is less than its value 1 before the call. -/
theorem host_version_decreases_on_read :
    ((buffer_state_monitor.ctor false).register_host_access access_mode.write).2
        = { _svm := false, _host_data_version := 1, _device_data_version := 0 }
      ∧ (buffer_state_monitor.register_host_access
          { _svm := false, _host_data_version := 1, _device_data_version := 0 }
          access_mode.read).2
        = { _svm := false, _host_data_version := 0, _device_data_version := 0 }
      ∧ (buffer_state_monitor.register_host_access
          { _svm := false, _host_data_version := 1, _device_data_version := 0 }
          access_mode.read).2._host_data_version < 1 := by
  decide

/-- A unified monitor with both versions 0 answers `none` to every
registration and stays as it is. -/
theorem register_access_unified (d : domain) (m : access_mode) :
    (buffer_state_monitor.ctor true).register_access d m
      = (buffer_action.none, buffer_state_monitor.ctor true) := by
  cases d <;> rfl

/-- C5: for a monitor constructed with `is_svm = true` and every sequence of
host and device accesses of any modes, every call returns
`buffer_action::none`, and after the sequence both versions are 0 and neither
`is_host_outdated` nor `is_device_outdated` holds. -/
theorem unified_monitor_never_copies (accesses : List (domain × access_mode)) :
    ((buffer_state_monitor.ctor true).register_all accesses).1
        = List.replicate accesses.length buffer_action.none
      ∧ ((buffer_state_monitor.ctor true).register_all accesses).2._host_data_version = 0
      ∧ ((buffer_state_monitor.ctor true).register_all accesses).2._device_data_version = 0
      ∧ ((buffer_state_monitor.ctor true).register_all accesses).2.is_host_outdated = false
      ∧ ((buffer_state_monitor.ctor true).register_all accesses).2.is_device_outdated
          = false := by
  have key : (buffer_state_monitor.ctor true).register_all accesses
      = (List.replicate accesses.length buffer_action.none,
          buffer_state_monitor.ctor true) := by
    induction accesses with
    | nil => rfl
    | cons a rest ih =>
      obtain ⟨d, m⟩ := a
      simp only [buffer_state_monitor.register_all, register_access_unified, ih,
        List.length_cons, List.replicate_succ]
  rw [key]
  exact ⟨rfl, rfl, rfl, rfl, rfl⟩

/-! ## Theorems: the buffer access log -/

/-- Pushing the task of every operation onto `deps` appends the tasks. -/
theorem foldl_push_task (ops : List logged_operation)
    (deps : List task_graph_node_ptr) :
    ops.foldl (fun deps op => deps ++ [op.task]) deps
      = deps ++ ops.map (fun op => op.task) := by
  induction ops generalizing deps with
  | nil => simp
  | cons op rest ih => simp [ih]

/-- Pushing the task of every operation that is not a read onto `deps` appends
the tasks of the operations that are not reads. -/
theorem foldl_push_task_of_writes (ops : List logged_operation)
    (deps : List task_graph_node_ptr) :
    ops.foldl
        (fun deps op =>
          if op.access_mode ≠ access_mode.read then deps ++ [op.task] else deps)
        deps
      = deps ++ (ops.filter
          (fun op => decide (op.access_mode ≠ access_mode.read))).map
            (fun op => op.task) := by
  induction ops generalizing deps with
  | nil => simp
  | cons op rest ih =>
    by_cases hm : op.access_mode = access_mode.read
    · rw [List.foldl_cons, if_neg (by simp [hm]), ih, List.filter_cons_of_neg (by simp [hm])]
    · rw [List.foldl_cons, if_pos hm, ih, List.filter_cons_of_pos (by simp [hm])]
      simp

/-- C6: `calculate_dependencies(m)` returns, in log order, the node of every
logged entry when `m` is not read, and exactly the nodes of the logged entries
whose recorded mode is not read when `m` is read; the log is left unchanged. -/
theorem calculate_dependencies_returns (self : buffer_access_log)
    (m : access_mode) :
    (self.calculate_dependencies m).1
        = (if m = access_mode.read then
            (self._operations.filter
              (fun op => decide (op.access_mode ≠ access_mode.read))).map
                (fun op => op.task)
          else self._operations.map (fun op => op.task))
      ∧ (self.calculate_dependencies m).2 = self := by
  refine ⟨?_, rfl⟩
  by_cases hm : m = access_mode.read
  · have h := foldl_push_task_of_writes self._operations []
    rw [List.nil_append] at h
    simp only [buffer_access_log.calculate_dependencies, hm, ne_eq, not_true_eq_false,
      if_false, if_true]
    exact h
  · have h := foldl_push_task self._operations []
    rw [List.nil_append] at h
    simp only [buffer_access_log.calculate_dependencies, hm, ne_eq, not_false_eq_true,
      if_false, if_true]
    exact h

/-- The erase loop keeps the visited part and appends the elements from the
iterator on whose node has not completed. -/
theorem erase_loop_eq_filter (is_done : task_graph_node_ptr → Bool)
    (from_it before : List logged_operation) :
    buffer_access_log.erase_loop is_done before from_it
      = before ++ from_it.filter (fun op => !is_done op.task) := by
  induction from_it generalizing before with
  | nil => simp [buffer_access_log.erase_loop]
  | cons op rest ih =>
    by_cases hd : is_done op.task = true
    · simp [buffer_access_log.erase_loop, hd, ih]
    · simp [buffer_access_log.erase_loop, hd, ih]

/-- C7: for every log and every completion status of the nodes, the log after
`add_operation(node, mode)` is the old entries followed by `(node, mode)`,
restricted to the entries whose node has not completed, in their order; so no
entry of it has a completed node, its length is the number of entries (old and
new) whose node has not completed, and it is empty when all of them have
completed. -/
theorem add_operation_appends_then_prunes (is_done : task_graph_node_ptr → Bool)
    (self : buffer_access_log) (task : task_graph_node_ptr)
    (access : access_mode) :
    (self.add_operation is_done task access)._operations
        = (self._operations ++ [logged_operation.mk task access]).filter
            (fun op => !is_done op.task)
      ∧ (∀ op ∈ (self.add_operation is_done task access)._operations,
          is_done op.task = false)
      ∧ (self.add_operation is_done task access)._operations.length
        = (self._operations ++ [logged_operation.mk task access]).countP
            (fun op => !is_done op.task)
      ∧ ((∀ op ∈ self._operations ++ [logged_operation.mk task access],
            is_done op.task = true) →
          (self.add_operation is_done task access)._operations = []) := by
  have h : (self.add_operation is_done task access)._operations
      = (self._operations ++ [logged_operation.mk task access]).filter
          (fun op => !is_done op.task) := by
    simp only [buffer_access_log.add_operation, erase_loop_eq_filter,
      List.nil_append]
  refine ⟨h, ?_, ?_, ?_⟩
  · intro op hop
    rw [h] at hop
    simpa using (List.mem_filter.mp hop).2
  · rw [h, List.countP_eq_length_filter]
  · intro hall
    rw [h, List.filter_eq_nil_iff]
    intro op hop
    simp [hall op hop]

/-- C8, evaluated on the code: node 1 is logged by `add_operation` while it has
not completed and completes afterwards. Every logged operation has then
completed, `is_write_operation_pending` returns false, and `is_buffer_in_use`
returns true. -/
theorem is_buffer_in_use_with_completed_operation :
    log_with_node_1._operations = [logged_operation.mk 1 access_mode.write]
      ∧ log_with_node_1._operations.all (fun op => (fun _ => true) op.task) = true
      ∧ log_with_node_1.is_write_operation_pending (fun _ => true) = false
      ∧ log_with_node_1.is_buffer_in_use = true := by
  decide

/-- C9, evaluated on the code: a non-unified buffer with write-back to its own
host storage, whose device copy is the newer one after a device write and
whose access log holds node 5, registered through `register_external_access`
and not completed. Its destruction copies from device to host, frees the
device storage, frees the host storage, and only then waits on node 5. -/
theorem destroy_waits_after_copy_and_free :
    buffer_with_pending_node._dependency_manager._operations
        = [logged_operation.mk 5 access_mode.write]
      ∧ buffer_with_pending_node.destroy false
        = [destruction_effect.hipMemcpy_device_to_host 100 200 4,
            destruction_effect.hipFree 200,
            destruction_effect.delete_array 100,
            destruction_effect.wait 5]
      ∧ first_index (fun e => decide (e = destruction_effect.wait 5))
          (buffer_with_pending_node.destroy false) = some 3
      ∧ first_index (fun e => decide (e = destruction_effect.hipFree 200))
          (buffer_with_pending_node.destroy false) = some 1 := by
  decide

/-! ## Theorems: the worker thread -/

/-- A newly constructed worker thread satisfies the invariant. -/
theorem consistent_ctor : worker_thread.ctor.consistent := by
  simp [worker_thread.consistent, worker_thread.ctor, worker_thread.about_to_invoke]

/-- A submission keeps the invariant. -/
theorem consistent_call (s : worker_thread) (f : Nat) (h : s.consistent) :
    (s.call f).consistent := by
  obtain ⟨h1, -, -⟩ := h
  refine ⟨?_, ?_, ?_⟩
  · simp only [worker_thread.call, worker_thread.about_to_invoke] at h1 ⊢
    rw [List.map_append, List.map_append, h1]
    simp
  · intro _
    simp [worker_thread.call]
  · intro _ _
    simp [worker_thread.call]

/-- A call of `halt` keeps the invariant. -/
theorem consistent_halt (s : worker_thread) (h : s.consistent) :
    s.halt.consistent := h

/-- A step of the worker thread keeps the invariant. -/
theorem consistent_work_step (s : worker_thread) (h : s.consistent) :
    s.work_step.consistent := by
  obtain ⟨pending, cont, queue, position, submitted, invoked⟩ := s
  obtain ⟨h1, h2, h3⟩ := h
  cases position with
  | loop_condition =>
    simp only [worker_thread.work_step]
    split <;>
      simp_all [worker_thread.consistent, worker_thread.about_to_invoke]
  | wait_for_work =>
    simp only [worker_thread.work_step]
    split <;>
      simp_all [worker_thread.consistent, worker_thread.about_to_invoke]
  | check_pending =>
    simp only [worker_thread.work_step]
    split <;>
      simp_all [worker_thread.consistent, worker_thread.about_to_invoke]
  | take_operation =>
    cases queue with
    | nil => simp at h2
    | cons f rest =>
      simp_all [worker_thread.work_step, worker_thread.consistent,
        worker_thread.about_to_invoke]
  | run_operation operation =>
    simp_all [worker_thread.work_step, worker_thread.consistent,
      worker_thread.about_to_invoke]
  | mark_idle =>
    simp only [worker_thread.work_step]
    split <;>
      simp_all [worker_thread.consistent, worker_thread.about_to_invoke]
  | finished =>
    simp_all [worker_thread.work_step, worker_thread.consistent,
      worker_thread.about_to_invoke]

/-- Every event keeps the invariant. -/
theorem consistent_after (s : worker_thread) (e : worker_event)
    (h : s.consistent) : (s.after e).consistent := by
  cases e with
  | submit f => exact consistent_call s f h
  | halt => exact consistent_halt s h
  | work => exact consistent_work_step s h

/-- Every sequence of events keeps the invariant. -/
theorem consistent_foldl (events : List worker_event) (s : worker_thread)
    (h : s.consistent) : (events.foldl worker_thread.after s).consistent := by
  induction events generalizing s with
  | nil => exact h
  | cons e rest ih => exact ih (s.after e) (consistent_after s e h)

/-- The history of submissions grows by the callables the events submit. -/
theorem submitted_foldl (events : List worker_event) (s : worker_thread) :
    (events.foldl worker_thread.after s).submitted
      = s.submitted ++ submissions events := by
  induction events generalizing s with
  | nil => simp [submissions]
  | cons e rest ih =>
    cases e with
    | submit f =>
      simp [ih, submissions, worker_thread.after, worker_thread.call]
    | halt => simp [ih, submissions, worker_thread.after, worker_thread.halt]
    | work =>
      have hs : s.work_step.submitted = s.submitted := by
        obtain ⟨pending, cont, queue, position, submitted, invoked⟩ := s
        cases position <;> simp only [worker_thread.work_step] <;>
          (try split) <;> rfl
      simp [ih, submissions, worker_thread.after, hs]

/-- C10: in every state reached from a newly constructed worker thread by
interleaving submissions through `operator()`, calls of `halt` and steps of
the `work` loop, the sequence of operations the worker has invoked is a
prefix of the sequence of callables submitted: every invoked operation is a
submitted callable, invoked once, in submission order, with none skipped. -/
theorem worker_invokes_prefix_of_submissions (events : List worker_event) :
    (worker_thread.reached events).invoked
      <+: (submissions events).map some := by
  have hc := consistent_foldl events worker_thread.ctor consistent_ctor
  have hs := submitted_foldl events worker_thread.ctor
  obtain ⟨h1, -, -⟩ := hc
  rw [hs] at h1
  simp only [worker_thread.ctor, List.nil_append] at h1
  simp only [worker_thread.reached]
  rw [h1, List.append_assoc]
  exact List.prefix_append _ _

/-! ## Theorems: repeated accesses to one domain -/

/-- After an access of any mode to a domain, a non-unified monitor holds a
version for that domain that is not less than the other version. -/
theorem current_in_after_access (h v : Nat) (d : domain) (m : access_mode) :
    ((buffer_state_monitor.mk false h v).register_access d m).2.current_in d := by
  cases d <;> cases m <;>
    simp [buffer_state_monitor.register_access,
      buffer_state_monitor.register_host_access,
      buffer_state_monitor.register_device_access,
      buffer_state_monitor.current_in, apply_ite]

/-- An access to a domain whose version is not less than the other version
returns `buffer_action::none` and leaves the monitor in such a state. -/
theorem register_access_of_current_in (s : buffer_state_monitor) (d : domain)
    (m : access_mode) (hs : s.current_in d) :
    (s.register_access d m).1 = buffer_action.none
      ∧ (s.register_access d m).2.current_in d := by
  obtain ⟨svm, h, v⟩ := s
  obtain ⟨hsvm, hle⟩ := hs
  simp only at hsvm
  subst hsvm
  cases d with
  | host =>
    have hnot : ¬ h < v := Nat.not_lt.mpr hle
    cases m <;>
      simp [buffer_state_monitor.register_access,
        buffer_state_monitor.register_host_access,
        buffer_state_monitor.current_in, hnot]
  | device =>
    have hnot : ¬ v < h := Nat.not_lt.mpr hle
    cases m <;>
      simp [buffer_state_monitor.register_access,
        buffer_state_monitor.register_device_access,
        buffer_state_monitor.current_in, hnot]

/-- A run of accesses to a domain whose version is not less than the other
version returns `buffer_action::none` every time. -/
theorem register_all_of_current_in (d : domain) (modes : List access_mode)
    (s : buffer_state_monitor) (hs : s.current_in d) :
    (s.register_all (modes.map (fun m => (d, m)))).1
      = List.replicate modes.length buffer_action.none := by
  induction modes generalizing s with
  | nil => rfl
  | cons m rest ih =>
    obtain ⟨hnone, hnext⟩ := register_access_of_current_in s d m hs
    simp only [List.map_cons, buffer_state_monitor.register_all, hnone,
      ih _ hnext, List.length_cons, List.replicate_succ]

/-- C11: for a non-unified monitor with any versions `h` and `v`, after an
access of any mode to a domain `d`, every access of a following run of
accesses to the same domain `d`, of any modes and with no access to the other
domain in between, returns `buffer_action::none`. -/
theorem no_copy_in_run_on_same_domain (h v : Nat) (d : domain) (m : access_mode)
    (modes : List access_mode) :
    (buffer_state_monitor.register_all
        ((buffer_state_monitor.mk false h v).register_access d m).2
        (modes.map (fun m1 => (d, m1)))).1
      = List.replicate modes.length buffer_action.none :=
  register_all_of_current_in d modes _ (current_in_after_access h v d m)

end sycu
